import Mathlib

/-!
Verification of the natural-language specification of the `kalman` repository
(a discrete-time linear Kalman filter with a Rauch-Tung-Striebel smoother,
`src/lib.rs` and `src/state_and_covariance.rs`) against a shallow embedding of
its code.

The Rust code is generic over a scalar type `R : RealField` and is used with
IEEE floating-point scalars.  The embedding models the scalar exactly: a value
is either a finite rational, positive infinity, negative infinity, or
not-a-number.  Arithmetic on finite values is exact (no rounding); the special
values follow the IEEE rules for addition, negation and multiplication, and
comparison with not-a-number fails, which is everything the code under
verification relies on.

Matrices are Mathlib `Matrix` values over this scalar; the products computed by
the code are modelled by explicit dot-product folds so that no algebraic type
class structure is assumed of the scalar.
-/

namespace Kalman

/-- Exact model of an IEEE-style scalar: a finite rational, one of the two
infinities, or not-a-number. -/
inductive FloatE where
  | nan : FloatE
  | pinf : FloatE
  | ninf : FloatE
  | fin : ℚ → FloatE
deriving DecidableEq

namespace FloatE

/-- IEEE addition: not-a-number is absorbing, opposite infinities give
not-a-number, an infinity dominates finite values, finite addition is exact. -/
def add : FloatE → FloatE → FloatE
  | nan, _ => nan
  | _, nan => nan
  | pinf, ninf => nan
  | ninf, pinf => nan
  | pinf, _ => pinf
  | _, pinf => pinf
  | ninf, _ => ninf
  | _, ninf => ninf
  | fin p, fin q => fin (p + q)

/-- IEEE negation. -/
def neg : FloatE → FloatE
  | nan => nan
  | pinf => ninf
  | ninf => pinf
  | fin q => fin (-q)

/-- IEEE subtraction is addition of the negation. -/
def sub (x y : FloatE) : FloatE := add x (neg y)

/-- IEEE multiplication: not-a-number is absorbing, infinity times zero is
not-a-number, otherwise the usual sign rules; finite multiplication is exact. -/
def mul : FloatE → FloatE → FloatE
  | nan, _ => nan
  | _, nan => nan
  | pinf, pinf => pinf
  | pinf, ninf => ninf
  | ninf, pinf => ninf
  | ninf, ninf => pinf
  | pinf, fin q => if 0 < q then pinf else if q < 0 then ninf else nan
  | fin q, pinf => if 0 < q then pinf else if q < 0 then ninf else nan
  | ninf, fin q => if 0 < q then ninf else if q < 0 then pinf else nan
  | fin q, ninf => if 0 < q then ninf else if q < 0 then pinf else nan
  | fin p, fin q => fin (p * q)

instance : Add FloatE := ⟨add⟩

instance : Neg FloatE := ⟨neg⟩

instance : Sub FloatE := ⟨sub⟩

instance : Mul FloatE := ⟨mul⟩

instance : Zero FloatE := ⟨fin 0⟩

instance : One FloatE := ⟨fin 1⟩

/-- IEEE partial comparison (`PartialOrd::partial_cmp` in Rust): comparisons
involving not-a-number fail, infinities compare in the obvious way, finite
values compare exactly. -/
def pcmp : FloatE → FloatE → Option Ordering
  | nan, _ => none
  | _, nan => none
  | pinf, pinf => some .eq
  | pinf, _ => some .gt
  | _, pinf => some .lt
  | ninf, ninf => some .eq
  | ninf, _ => some .lt
  | _, ninf => some .gt
  | fin p, fin q => some (compare p q)

/-- Whether the value is a finite rational. -/
def isFinite : FloatE → Bool
  | fin _ => true
  | _ => false

/-- The rational carried by a finite value (zero for the special values; only
used on matrices all of whose entries are finite). -/
def toQ : FloatE → ℚ
  | fin q => q
  | _ => 0

end FloatE

/-- Function `is_nan` from `lib.rs`: a scalar is treated as not-a-number exactly when
its partial comparison with zero fails. -/
def is_nan (x : FloatE) : Bool := (FloatE.pcmp x 0).isNone

/-- Dot product of two vectors of scalars, as the explicit left-to-right sum
computed by the dense linear-algebra substrate. -/
def dotE {k : ℕ} (v w : Fin k → FloatE) : FloatE :=
  ((List.finRange k).map fun i => v i * w i).sum

/-- Matrix product. -/
def mulE {l k r : ℕ} (A : Matrix (Fin l) (Fin k) FloatE) (B : Matrix (Fin k) (Fin r) FloatE) :
    Matrix (Fin l) (Fin r) FloatE :=
  Matrix.of fun i j => dotE (fun t => A i t) (fun t => B t j)

/-- Matrix-vector product. -/
def mulVecE {l k : ℕ} (A : Matrix (Fin l) (Fin k) FloatE) (v : Fin k → FloatE) :
    Fin l → FloatE :=
  fun i => dotE (fun t => A i t) v

/-- Model of `symmetric_part` of the linear-algebra substrate: one half times the sum of
the matrix and its transpose. -/
def symmetricPart {k : ℕ} (M : Matrix (Fin k) (Fin k) FloatE) :
    Matrix (Fin k) (Fin k) FloatE :=
  Matrix.of fun i j => FloatE.fin (1 / 2) * (M i j + M.transpose i j)

/-- Every entry of the matrix is a finite rational. -/
def allFinite {l k : ℕ} (M : Matrix (Fin l) (Fin k) FloatE) : Bool :=
  decide (∀ i j, (M i j).isFinite = true)

/-- The rational matrix underlying a matrix of finite scalars. -/
def matToQ {l k : ℕ} (M : Matrix (Fin l) (Fin k) FloatE) : Matrix (Fin l) (Fin k) ℚ :=
  Matrix.of fun i j => (M i j).toQ

/-- One elimination step of the exact Cholesky pivot recursion: the Schur
complement of the leading entry. -/
def schurComplement {m : ℕ} (S : Matrix (Fin (m + 1)) (Fin (m + 1)) ℚ) :
    Matrix (Fin m) (Fin m) ℚ :=
  Matrix.of fun i j => S i.succ j.succ - S i.succ 0 * S 0 j.succ / S 0 0

/-- Exact-arithmetic success condition of a Cholesky factorization: every pivot
produced by the elimination recursion is positive (for a symmetric matrix this
holds exactly when the matrix is positive-definite). -/
def choleskyPivotsPos : (m : ℕ) → Matrix (Fin m) (Fin m) ℚ → Bool
  | 0, _ => true
  | _ + 1, S => decide (0 < S 0 0) && choleskyPivotsPos _ (schurComplement S)

/-- Exact model of `Cholesky::new` succeeding on a matrix of scalars: all
entries are finite and the pivot recursion on the underlying rational matrix
stays positive.  (The factorization of the external linear-algebra library is
not part of the repository; in exact arithmetic it succeeds precisely when all
pivots are positive.) -/
def choleskyOk {m : ℕ} (S : Matrix (Fin m) (Fin m) FloatE) : Bool :=
  allFinite S && choleskyPivotsPos m (matToQ S)

/-- Computable exact inverse of a rational matrix (inverse of the determinant
times the adjugate). -/
def qInv {m : ℕ} (A : Matrix (Fin m) (Fin m) ℚ) : Matrix (Fin m) (Fin m) ℚ :=
  (A.det)⁻¹ • A.adjugate

/-- Exact model of the Cholesky-based inverse `Cholesky::inverse`: on the
matrices where the factorization succeeds it is the exact matrix inverse. -/
def cholInverse {m : ℕ} (S : Matrix (Fin m) (Fin m) FloatE) :
    Matrix (Fin m) (Fin m) FloatE :=
  (qInv (matToQ S)).map FloatE.fin

/-- Structure `StateAndCovariance` from `state_and_covariance.rs`: one Gaussian belief,
a length-`n` state vector paired with an `n`-by-`n` covariance matrix. -/
structure StateAndCovariance (n : ℕ) where
  state : Fin n → FloatE
  covariance : Matrix (Fin n) (Fin n) FloatE

instance {n : ℕ} : DecidableEq (StateAndCovariance n) := fun a b =>
  decidable_of_iff (a.state = b.state ∧ a.covariance = b.covariance)
    (by cases a; cases b; simp)

/-- The data of a `TransitionModelLinearNoControl` implementation: the dynamics
matrix `F`, its transpose accessor `FT`, and the process noise `Q`. -/
structure TransitionModelLinearNoControl (n : ℕ) where
  F : Matrix (Fin n) (Fin n) FloatE
  FT : Matrix (Fin n) (Fin n) FloatE
  Q : Matrix (Fin n) (Fin n) FloatE

/-- Method `TransitionModelLinearNoControl::predict`: the time update
`x' = F·x`, `P' = (F·P)·Fᵗ + Q`. -/
def predict {n : ℕ} (tm : TransitionModelLinearNoControl n)
    (previous_estimate : StateAndCovariance n) : StateAndCovariance n :=
  { state := mulVecE tm.F previous_estimate.state
    covariance := mulE (mulE tm.F previous_estimate.covariance) tm.FT + tm.Q }

/-- The data of an `ObservationModel` implementation: the observation matrix
`H`, its transpose accessor `HT`, the observation noise `R`, and the
(overridable) observation-prediction function, whose default is `y = H·x`. -/
structure ObservationModel (n m : ℕ) where
  H : Matrix (Fin m) (Fin n) FloatE
  HT : Matrix (Fin n) (Fin m) FloatE
  R : Matrix (Fin m) (Fin m) FloatE
  predict_observation : (Fin n → FloatE) → Fin m → FloatE := fun state => mulVecE H state

/-- Modelled from the spec: `error.rs` is not under `src/`; the specification
names a single error kind, `CovarianceNotPositiveSemiDefinite`, raised when a
Cholesky factorization fails. -/
inductive Error where
  | covarianceNotPositiveSemiDefinite : Error
deriving DecidableEq

/-- Enumeration `CovarianceUpdateMethod`: selects the posterior-covariance formula. -/
inductive CovarianceUpdateMethod where
  | OptimalKalman : CovarianceUpdateMethod
  | OptimalKalmanForcedSymmetric : CovarianceUpdateMethod
  | JosephForm : CovarianceUpdateMethod
deriving DecidableEq

/-- Method `ObservationModel::update`: the measurement update.  Forms the innovation
covariance `s = (H·P)·Hᵗ + R`, fails with `CovarianceNotPositiveSemiDefinite`
when its Cholesky factorization fails, and otherwise returns the posterior with
mean `x + K·(observation − predict_observation(x))` for the gain
`K = (P·Hᵗ)·S⁻¹` and the covariance selected by `covariance_method`. -/
def update {n m : ℕ} (om : ObservationModel n m) (prior : StateAndCovariance n)
    (observation : Fin m → FloatE) (covariance_method : CovarianceUpdateMethod) :
    Except Error (StateAndCovariance n) :=
  let h := om.H
  let p := prior.covariance
  let ht := om.HT
  let r := om.R
  let s := mulE (mulE h p) ht + r
  if choleskyOk s then
    let s_inv := cholInverse s
    let k_gain := mulE (mulE p ht) s_inv
    let predicted := om.predict_observation prior.state
    let innovation := observation - predicted
    let state := prior.state + mulVecE k_gain innovation
    let kh := mulE k_gain om.H
    let one_minus_kh := (1 : Matrix (Fin n) (Fin n) FloatE) - kh
    let covariance :=
      match covariance_method with
      | CovarianceUpdateMethod.JosephForm =>
          mulE (mulE one_minus_kh prior.covariance) one_minus_kh.transpose +
            mulE (mulE k_gain r) k_gain.transpose
      | CovarianceUpdateMethod.OptimalKalman => mulE one_minus_kh prior.covariance
      | CovarianceUpdateMethod.OptimalKalmanForcedSymmetric =>
          symmetricPart (mulE one_minus_kh prior.covariance)
    Except.ok { state := state, covariance := covariance }
  else
    Except.error Error.covarianceNotPositiveSemiDefinite

/-- Structure `KalmanFilterNoControl`: references to the two models. -/
structure KalmanFilterNoControl (n m : ℕ) where
  transition_model : TransitionModelLinearNoControl n
  observation_matrix : ObservationModel n m

/-- Method `KalmanFilterNoControl::step_with_options`: predict, then, unless some
component of the observation is not-a-number, update with the given covariance
update method; a not-a-number component makes the whole observation missing and
the post-predict prior is returned unchanged. -/
def step_with_options {n m : ℕ} (kf : KalmanFilterNoControl n m)
    (previous_estimate : StateAndCovariance n) (observation : Fin m → FloatE)
    (covariance_update_method : CovarianceUpdateMethod) :
    Except Error (StateAndCovariance n) :=
  let prior := predict kf.transition_model previous_estimate
  if ∃ i, is_nan (observation i) = true then
    Except.ok prior
  else
    update kf.observation_matrix prior observation covariance_update_method

/-- Method `KalmanFilterNoControl::step`: `step_with_options` with the Joseph form. -/
def step {n m : ℕ} (kf : KalmanFilterNoControl n m)
    (previous_estimate : StateAndCovariance n) (observation : Fin m → FloatE) :
    Except Error (StateAndCovariance n) :=
  step_with_options kf previous_estimate observation CovarianceUpdateMethod.JosephForm

/-- Result of `filter_inplace` on the output-buffer model: either the runtime
assertion panicked (leaving the buffer untouched), or the function returned a
`Result` with the buffer in its final state. -/
inductive InplaceResult (n : ℕ) where
  | panic (buffer : List (StateAndCovariance n)) : InplaceResult n
  | normal (res : Except Error Unit) (buffer : List (StateAndCovariance n)) : InplaceResult n

/-- The loop of `filter_inplace`: walk the observations zipped with the buffer
slots, overwrite each visited slot with the new estimate and thread it to the
next step; a failing step returns the error immediately, leaving the current
slot and everything after it unchanged. -/
def filter_inplace_loop {n m : ℕ} (kf : KalmanFilterNoControl n m)
    (previous_estimate : StateAndCovariance n) :
    List (Fin m → FloatE) → List (StateAndCovariance n) →
      Except Error Unit × List (StateAndCovariance n)
  | [], buf => (Except.ok (), buf)
  | _ :: _, [] => (Except.ok (), [])
  | this_observation :: rest_obs, slot :: rest_buf =>
    match step kf previous_estimate this_observation with
    | Except.error e => (Except.error e, slot :: rest_buf)
    | Except.ok this_estimate =>
      let r := filter_inplace_loop kf this_estimate rest_obs rest_buf
      (r.1, this_estimate :: r.2)

/-- Method `KalmanFilterNoControl::filter_inplace`: assert that the buffer holds at
least as many slots as there are observations (a violated assertion panics
before anything is written), then run the loop. -/
def filter_inplace {n m : ℕ} (kf : KalmanFilterNoControl n m)
    (initial_estimate : StateAndCovariance n) (observations : List (Fin m → FloatE))
    (state_estimates : List (StateAndCovariance n)) : InplaceResult n :=
  if observations.length ≤ state_estimates.length then
    let r := filter_inplace_loop kf initial_estimate observations state_estimates
    InplaceResult.normal r.1 r.2
  else
    InplaceResult.panic state_estimates

/-- Method `KalmanFilterNoControl::filter`: allocate a buffer of placeholder beliefs
(zero state, identity covariance), run `filter_inplace`, and return the buffer
on success or the error on failure.  `none` stands for a propagated panic. -/
def filter {n m : ℕ} (kf : KalmanFilterNoControl n m)
    (initial_estimate : StateAndCovariance n) (observations : List (Fin m → FloatE)) :
    Option (Except Error (List (StateAndCovariance n))) :=
  let empty : StateAndCovariance n :=
    { state := fun _ => 0, covariance := (1 : Matrix (Fin n) (Fin n) FloatE) }
  match filter_inplace kf initial_estimate observations
      (List.replicate observations.length empty) with
  | InplaceResult.panic _ => none
  | InplaceResult.normal (Except.ok _) buf => some (Except.ok buf)
  | InplaceResult.normal (Except.error e) _ => some (Except.error e)

/-- Method `KalmanFilterNoControl::smooth_step`: one backward smoother step.  Re-runs
`predict` on the filtered belief, fails with `CovarianceNotPositiveSemiDefinite`
when the Cholesky factorization of the predicted covariance fails, and
otherwise applies the Rauch-Tung-Striebel correction with gain
`J = P_filt·(Fᵗ·V_pred⁻¹)`. -/
def smooth_step {n m : ℕ} (kf : KalmanFilterNoControl n m)
    (smooth_future filt : StateAndCovariance n) :
    Except Error (StateAndCovariance n) :=
  let prior := predict kf.transition_model filt
  if choleskyOk prior.covariance then
    let inv_prior_covariance := cholInverse prior.covariance
    let j := mulE filt.covariance (mulE kf.transition_model.FT inv_prior_covariance)
    let residuals := smooth_future.state - prior.state
    let state := filt.state + mulVecE j residuals
    let covar_residuals := smooth_future.covariance - prior.covariance
    let covariance := filt.covariance + mulE j (mulE covar_residuals j.transpose)
    Except.ok { state := state, covariance := covariance }
  else
    Except.error Error.covarianceNotPositiveSemiDefinite

/-- The backward loop of `smooth_from_filtered`: starting from the seed (the
reversed list's head, already pushed by the caller), fold `smooth_step` over
the remaining reversed filtered beliefs, collecting each new smoothed belief;
a failing step aborts the whole pass with its error. -/
def smoothBackLoop {n m : ℕ} (kf : KalmanFilterNoControl n m)
    (smooth_future : StateAndCovariance n) :
    List (StateAndCovariance n) → Except Error (List (StateAndCovariance n))
  | [] => Except.ok []
  | filt :: rest =>
    match smooth_step kf smooth_future filt with
    | Except.error e => Except.error e
    | Except.ok sf =>
      match smoothBackLoop kf sf rest with
      | Except.error e => Except.error e
      | Except.ok l => Except.ok (sf :: l)

/-- Method `KalmanFilterNoControl::smooth_from_filtered`: reverse the forward results,
seed with the last filtered belief (indexing an empty list panics, modelled by
`none`), run the backward loop, and reverse back to forward time order. -/
def smooth_from_filtered {n m : ℕ} (kf : KalmanFilterNoControl n m)
    (forward_results : List (StateAndCovariance n)) :
    Option (Except Error (List (StateAndCovariance n))) :=
  match forward_results.reverse with
  | [] => none
  | first :: rest =>
    some (match smoothBackLoop kf first rest with
      | Except.error e => Except.error e
      | Except.ok l => Except.ok ((first :: l).reverse))

/-- Reference definition, following the spec's words for the whole-series
filter: the sequence of posterior beliefs obtained by repeatedly applying
`step`, threading each output as the next step's previous estimate; any step
failure aborts the whole computation with that error. -/
def stepSeq {n m : ℕ} (kf : KalmanFilterNoControl n m) (previous : StateAndCovariance n) :
    List (Fin m → FloatE) → Except Error (List (StateAndCovariance n))
  | [] => Except.ok []
  | obs :: rest =>
    match step kf previous obs with
    | Except.error e => Except.error e
    | Except.ok est =>
      match stepSeq kf est rest with
      | Except.error e => Except.error e
      | Except.ok l => Except.ok (est :: l)

/-- Reference definition for the in-place filter's write trace: the list of
step outputs produced before the first failure (threaded exactly as `stepSeq`),
together with the error of the failing step, if any. -/
def stepTrace {n m : ℕ} (kf : KalmanFilterNoControl n m) (previous : StateAndCovariance n) :
    List (Fin m → FloatE) → List (StateAndCovariance n) × Option Error
  | [] => ([], none)
  | obs :: rest =>
    match step kf previous obs with
    | Except.error e => ([], some e)
    | Except.ok est =>
      let r := stepTrace kf est rest
      (est :: r.1, r.2)

/-! Concrete one-dimensional instances used by the witness theorems. -/

/-- The constant one-by-one matrix with the given finite entry. -/
def cmat (q : ℚ) : Matrix (Fin 1) (Fin 1) FloatE := Matrix.of fun _ _ => FloatE.fin q

/-- A one-dimensional constant-position transition model: `F = [1]`, `Q = [0]`. -/
def tm0 : TransitionModelLinearNoControl 1 := { F := cmat 1, FT := cmat 1, Q := cmat 0 }

/-- A one-dimensional direct observation model: `H = [1]`, `R = [1]`. -/
def om0 : ObservationModel 1 1 := { H := cmat 1, HT := cmat 1, R := cmat 1 }

/-- An observation model whose noise matrix is not positive-definite:
`R = [-1]`. -/
def omBad : ObservationModel 1 1 := { H := cmat 1, HT := cmat 1, R := cmat (-1) }

/-- The filter pairing `tm0` with `om0`. -/
def kf0 : KalmanFilterNoControl 1 1 := { transition_model := tm0, observation_matrix := om0 }

/-- The filter pairing `tm0` with `omBad`: its innovation covariance on `b0`
is `[0]`, so every update fails. -/
def kfBad : KalmanFilterNoControl 1 1 := { transition_model := tm0, observation_matrix := omBad }

/-- The belief with zero state and unit covariance. -/
def b0 : StateAndCovariance 1 := { state := fun _ => 0, covariance := cmat 1 }

/-- The belief with zero state and zero covariance: predicting it under `tm0`
gives a covariance that is not positive-definite. -/
def bZero : StateAndCovariance 1 := { state := fun _ => 0, covariance := cmat 0 }

/-- An ordinary finite observation. -/
def obs0 : Fin 1 → FloatE := fun _ => FloatE.fin 1

/-- An observation whose single component is not-a-number. -/
def obsNan : Fin 1 → FloatE := fun _ => FloatE.nan

/-- An observation whose single component is positive infinity. -/
def obsInf : Fin 1 → FloatE := fun _ => FloatE.pinf

/-! Helper lemmas. -/

theorem zero_eq : (0 : FloatE) = FloatE.fin 0 := rfl

theorem one_eq : (1 : FloatE) = FloatE.fin 1 := rfl

theorem fin_add_fin (p q : ℚ) : FloatE.fin p + FloatE.fin q = FloatE.fin (p + q) := rfl

theorem fin_mul_fin (p q : ℚ) : FloatE.fin p * FloatE.fin q = FloatE.fin (p * q) := rfl

theorem fin_sub_fin (p q : ℚ) : FloatE.fin p - FloatE.fin q = FloatE.fin (p - q) := by
  show FloatE.fin (p + -q) = _
  rw [← sub_eq_add_neg]

theorem is_nan_iff_eq_nan (x : FloatE) : is_nan x = true ↔ x = FloatE.nan := by
  cases x <;> simp [is_nan, FloatE.pcmp, zero_eq]

theorem stepTrace_none_length {n m : ℕ} (kf : KalmanFilterNoControl n m)
    (obs : List (Fin m → FloatE)) :
    ∀ prev, (stepTrace kf prev obs).2 = none →
      (stepTrace kf prev obs).1.length = obs.length := by
  induction obs with
  | nil => intro prev _; rfl
  | cons o rest ih =>
    intro prev h
    simp only [stepTrace] at h ⊢
    cases hs : step kf prev o with
    | error e => simp [hs] at h
    | ok est =>
      simp only [hs] at h ⊢
      simp [ih est h]

theorem stepTrace_some_length_lt {n m : ℕ} (kf : KalmanFilterNoControl n m)
    (obs : List (Fin m → FloatE)) :
    ∀ prev e, (stepTrace kf prev obs).2 = some e →
      (stepTrace kf prev obs).1.length < obs.length := by
  induction obs with
  | nil => intro prev e h; simp [stepTrace] at h
  | cons o rest ih =>
    intro prev e h
    simp only [stepTrace] at h ⊢
    cases hs : step kf prev o with
    | error e2 => simp [hs]
    | ok est =>
      simp only [hs] at h ⊢
      simpa using ih est e h

theorem stepSeq_of_trace_none {n m : ℕ} (kf : KalmanFilterNoControl n m)
    (obs : List (Fin m → FloatE)) :
    ∀ prev, (stepTrace kf prev obs).2 = none →
      stepSeq kf prev obs = Except.ok (stepTrace kf prev obs).1 := by
  induction obs with
  | nil => intro prev _; rfl
  | cons o rest ih =>
    intro prev h
    simp only [stepTrace] at h ⊢
    simp only [stepSeq]
    cases hs : step kf prev o with
    | error e => simp [hs] at h
    | ok est =>
      simp only [hs] at h ⊢
      rw [ih est h]

theorem stepSeq_of_trace_some {n m : ℕ} (kf : KalmanFilterNoControl n m)
    (obs : List (Fin m → FloatE)) :
    ∀ prev e, (stepTrace kf prev obs).2 = some e →
      stepSeq kf prev obs = Except.error e := by
  induction obs with
  | nil => intro prev e h; simp [stepTrace] at h
  | cons o rest ih =>
    intro prev e h
    simp only [stepTrace] at h
    simp only [stepSeq]
    cases hs : step kf prev o with
    | error e2 =>
      simp only [hs, Option.some_inj] at h
      simp [hs, h]
    | ok est =>
      simp only [hs] at h ⊢
      rw [ih est e h]

theorem filter_inplace_loop_eq {n m : ℕ} (kf : KalmanFilterNoControl n m)
    (obs : List (Fin m → FloatE)) :
    ∀ prev (buf : List (StateAndCovariance n)), obs.length ≤ buf.length →
      filter_inplace_loop kf prev obs buf =
        ((stepTrace kf prev obs).2.elim (Except.ok ()) Except.error,
         (stepTrace kf prev obs).1 ++ buf.drop (stepTrace kf prev obs).1.length) := by
  induction obs with
  | nil => intro prev buf _; simp [filter_inplace_loop, stepTrace]
  | cons o rest ih =>
    intro prev buf h
    cases buf with
    | nil => simp at h
    | cons slot restBuf =>
      simp only [filter_inplace_loop, stepTrace]
      cases hs : step kf prev o with
      | error e => simp [hs]
      | ok est =>
        have hr := ih est restBuf (by simpa using h)
        simp [hs, hr, List.drop_succ_cons]

theorem smoothBackLoop_length {n m : ℕ} (kf : KalmanFilterNoControl n m)
    (rest : List (StateAndCovariance n)) :
    ∀ f l2, smoothBackLoop kf f rest = Except.ok l2 → l2.length = rest.length := by
  induction rest with
  | nil =>
    intro f l2 h
    simp only [smoothBackLoop, Except.ok.injEq] at h
    rw [← h]
  | cons filt rest2 ih =>
    intro f l2 h
    simp only [smoothBackLoop] at h
    cases hs : smooth_step kf f filt with
    | error e => simp [hs] at h
    | ok sf =>
      simp only [hs] at h
      cases hl : smoothBackLoop kf sf rest2 with
      | error e => simp [hl] at h
      | ok l3 =>
        simp only [hl] at h
        have : sf :: l3 = l2 := by simpa using h
        rw [← this]
        simp [ih sf l3 hl]

/-! Claim theorems. -/

/-- C1: for every prior belief and every observation with at least one
not-a-number component, `step` and `step_with_options` (with any covariance
update method) return exactly the post-predict prior belief: the mean and
covariance produced by `predict` on the previous estimate, unchanged by any
measurement update. -/
theorem step_missing_observation {n m : ℕ} (kf : KalmanFilterNoControl n m)
    (previous_estimate : StateAndCovariance n) (observation : Fin m → FloatE)
    (method : CovarianceUpdateMethod)
    (hnan : ∃ i, is_nan (observation i) = true) :
    step_with_options kf previous_estimate observation method =
      Except.ok (predict kf.transition_model previous_estimate) ∧
    step kf previous_estimate observation =
      Except.ok (predict kf.transition_model previous_estimate) := by
  constructor <;> simp [step, step_with_options, hnan]

/-- Witness for C1: a concrete one-dimensional filter stepped on a
not-a-number observation returns the post-predict prior. -/
theorem step_missing_observation_witness :
    step_with_options kf0 b0 obsNan CovarianceUpdateMethod.OptimalKalman =
      Except.ok (predict kf0.transition_model b0) ∧
    step kf0 b0 obsNan = Except.ok (predict kf0.transition_model b0) :=
  step_missing_observation kf0 b0 obsNan CovarianceUpdateMethod.OptimalKalman ⟨0, rfl⟩

/-- C5: for every prior belief `(x, P)`, `predict` (with a transition model
whose `FT` accessor is the transpose of `F`) returns the belief with mean
`F·x` and covariance `(F·P)·Fᵗ + Q`; it is a total function with no error case,
returning a new `StateAndCovariance`. -/
theorem predict_time_update {n : ℕ} (tm : TransitionModelLinearNoControl n)
    (b : StateAndCovariance n) (hFT : tm.FT = tm.F.transpose) :
    predict tm b =
      { state := mulVecE tm.F b.state
        covariance := mulE (mulE tm.F b.covariance) tm.F.transpose + tm.Q } := by
  rw [predict, hFT]

/-- Witness for C5: the concrete one-dimensional transition model. -/
theorem predict_time_update_witness :
    predict tm0 b0 =
      { state := mulVecE tm0.F b0.state
        covariance := mulE (mulE tm0.F b0.covariance) tm0.F.transpose + tm0.Q } :=
  predict_time_update tm0 b0 rfl

/-- C3: `update` fails exactly when the Cholesky factorization of the
innovation covariance `S = (H·P)·Hᵗ + R` fails, and then it reports
`CovarianceNotPositiveSemiDefinite` (the sole error kind); whenever the
factorization succeeds, `update` returns a posterior belief. -/
theorem update_error_condition {n m : ℕ} (om : ObservationModel n m)
    (prior : StateAndCovariance n) (observation : Fin m → FloatE)
    (method : CovarianceUpdateMethod) (hHT : om.HT = om.H.transpose) :
    (update om prior observation method =
        Except.error Error.covarianceNotPositiveSemiDefinite ↔
      choleskyOk (mulE (mulE om.H prior.covariance) om.H.transpose + om.R) = false) ∧
    (choleskyOk (mulE (mulE om.H prior.covariance) om.H.transpose + om.R) = true →
      ∃ post, update om prior observation method = Except.ok post) := by
  rw [← hHT]
  constructor
  · cases hc : choleskyOk (mulE (mulE om.H prior.covariance) om.HT + om.R) <;>
      simp [update, hc]
  · intro hok
    simp only [update, hok, if_true]
    exact ⟨_, rfl⟩

/-- Witness for C3: on the concrete model the update succeeds, and with the
non-positive-definite noise matrix of `omBad` it fails with
`CovarianceNotPositiveSemiDefinite`. -/
theorem update_error_condition_witness :
    (∃ post, update om0 b0 obs0 CovarianceUpdateMethod.JosephForm = Except.ok post) ∧
    update omBad b0 obs0 CovarianceUpdateMethod.JosephForm =
      Except.error Error.covarianceNotPositiveSemiDefinite :=
  ⟨(update_error_condition om0 b0 obs0 CovarianceUpdateMethod.JosephForm rfl).2
      (by simp [choleskyOk, allFinite, matToQ, mulE, dotE, List.finRange, List.range,
        List.range.loop, choleskyPivotsPos, schurComplement, FloatE.isFinite, FloatE.toQ,
        Matrix.add_apply, Fin.forall_fin_one, zero_eq, one_eq, fin_add_fin, fin_mul_fin,
        fin_sub_fin, om0, b0, cmat]),
   (update_error_condition omBad b0 obs0 CovarianceUpdateMethod.JosephForm rfl).1.mpr
      (by simp [choleskyOk, allFinite, matToQ, mulE, dotE, List.finRange, List.range,
        List.range.loop, choleskyPivotsPos, schurComplement, FloatE.isFinite, FloatE.toQ,
        Matrix.add_apply, Fin.forall_fin_one, zero_eq, one_eq, fin_add_fin, fin_mul_fin,
        fin_sub_fin, omBad, b0, cmat])⟩

/-- C2: whenever the Cholesky factorization of `S = (H·P)·Hᵗ + R` succeeds,
the posterior covariance returned by `update` is exactly the formula selected
by the covariance method — Joseph form `((I−KH)·P)·(I−KH)ᵗ + (K·R)·Kᵗ`,
optimal Kalman `(I−KH)·P`, or the symmetric part of `(I−KH)·P` — where
`K = (P·Hᵗ)·S⁻¹` with `S⁻¹` the Cholesky-based inverse. -/
theorem update_covariance_method {n m : ℕ} (om : ObservationModel n m)
    (prior : StateAndCovariance n) (observation : Fin m → FloatE)
    (hHT : om.HT = om.H.transpose)
    (hok : choleskyOk (mulE (mulE om.H prior.covariance) om.H.transpose + om.R) = true) :
    let s := mulE (mulE om.H prior.covariance) om.H.transpose + om.R
    let k := mulE (mulE prior.covariance om.H.transpose) (cholInverse s)
    let imkh := (1 : Matrix (Fin n) (Fin n) FloatE) - mulE k om.H
    (Except.map StateAndCovariance.covariance
        (update om prior observation CovarianceUpdateMethod.JosephForm) =
      Except.ok (mulE (mulE imkh prior.covariance) imkh.transpose +
        mulE (mulE k om.R) k.transpose)) ∧
    (Except.map StateAndCovariance.covariance
        (update om prior observation CovarianceUpdateMethod.OptimalKalman) =
      Except.ok (mulE imkh prior.covariance)) ∧
    (Except.map StateAndCovariance.covariance
        (update om prior observation CovarianceUpdateMethod.OptimalKalmanForcedSymmetric) =
      Except.ok (symmetricPart (mulE imkh prior.covariance))) := by
  have hok' : choleskyOk (mulE (mulE om.H prior.covariance) om.HT + om.R) = true := by
    rw [hHT]; exact hok
  refine ⟨?_, ?_, ?_⟩ <;> simp [update, hok, hok', hHT, Except.map]

/-- Witness for C2: the three covariance formulas on the concrete model. -/
theorem update_covariance_method_witness :
    let s := mulE (mulE om0.H b0.covariance) om0.H.transpose + om0.R
    let k := mulE (mulE b0.covariance om0.H.transpose) (cholInverse s)
    let imkh := (1 : Matrix (Fin 1) (Fin 1) FloatE) - mulE k om0.H
    (Except.map StateAndCovariance.covariance
        (update om0 b0 obs0 CovarianceUpdateMethod.JosephForm) =
      Except.ok (mulE (mulE imkh b0.covariance) imkh.transpose +
        mulE (mulE k om0.R) k.transpose)) ∧
    (Except.map StateAndCovariance.covariance
        (update om0 b0 obs0 CovarianceUpdateMethod.OptimalKalman) =
      Except.ok (mulE imkh b0.covariance)) ∧
    (Except.map StateAndCovariance.covariance
        (update om0 b0 obs0 CovarianceUpdateMethod.OptimalKalmanForcedSymmetric) =
      Except.ok (symmetricPart (mulE imkh b0.covariance))) :=
  update_covariance_method om0 b0 obs0 rfl
    (by simp [choleskyOk, allFinite, matToQ, mulE, dotE, List.finRange, List.range,
      List.range.loop, choleskyPivotsPos, schurComplement, FloatE.isFinite, FloatE.toQ,
      Matrix.add_apply, Fin.forall_fin_one, zero_eq, one_eq, fin_add_fin, fin_mul_fin,
      fin_sub_fin, om0, b0, cmat])

/-- C4: whenever `update` succeeds, the posterior mean is
`x' = x + K·(observation − predict_observation(x))` with gain
`K = (P·Hᵗ)·S⁻¹` computed via the Cholesky-based inverse of `S`; the mean is
the same for all three covariance update methods. -/
theorem update_posterior_mean {n m : ℕ} (om : ObservationModel n m)
    (prior : StateAndCovariance n) (observation : Fin m → FloatE)
    (hHT : om.HT = om.H.transpose)
    (hok : choleskyOk (mulE (mulE om.H prior.covariance) om.H.transpose + om.R) = true) :
    let s := mulE (mulE om.H prior.covariance) om.H.transpose + om.R
    let k := mulE (mulE prior.covariance om.H.transpose) (cholInverse s)
    (∀ method, Except.map StateAndCovariance.state (update om prior observation method) =
      Except.ok (prior.state +
        mulVecE k (observation - om.predict_observation prior.state))) ∧
    (∀ method₁ method₂,
      Except.map StateAndCovariance.state (update om prior observation method₁) =
      Except.map StateAndCovariance.state (update om prior observation method₂)) := by
  have hok' : choleskyOk (mulE (mulE om.H prior.covariance) om.HT + om.R) = true := by
    rw [hHT]; exact hok
  refine ⟨fun method => ?_, fun method₁ method₂ => ?_⟩
  · cases method <;> simp [update, hok, hok', hHT, Except.map]
  · cases method₁ <;> cases method₂ <;> simp [update, hok', Except.map]

/-- Witness for C4: the posterior mean on the concrete model. -/
theorem update_posterior_mean_witness :
    let s := mulE (mulE om0.H b0.covariance) om0.H.transpose + om0.R
    let k := mulE (mulE b0.covariance om0.H.transpose) (cholInverse s)
    (∀ method, Except.map StateAndCovariance.state (update om0 b0 obs0 method) =
      Except.ok (b0.state + mulVecE k (obs0 - om0.predict_observation b0.state))) ∧
    (∀ method₁ method₂,
      Except.map StateAndCovariance.state (update om0 b0 obs0 method₁) =
      Except.map StateAndCovariance.state (update om0 b0 obs0 method₂)) :=
  update_posterior_mean om0 b0 obs0 rfl
    (by simp [choleskyOk, allFinite, matToQ, mulE, dotE, List.finRange, List.range,
      List.range.loop, choleskyPivotsPos, schurComplement, FloatE.isFinite, FloatE.toQ,
      Matrix.add_apply, Fin.forall_fin_one, zero_eq, one_eq, fin_add_fin, fin_mul_fin,
      fin_sub_fin, om0, b0, cmat])

/-- C10: a component is classified as not-a-number exactly when its partial
comparison with zero fails; the two infinities are not so classified (only the
actual not-a-number value is), and `step_with_options` on an observation with
no not-a-number component — infinities included — takes the ordinary update
path, passing the observation to `update` on the post-predict prior. -/
theorem nan_classification {n m : ℕ} :
    (∀ x : FloatE, is_nan x = true ↔ FloatE.pcmp x 0 = none) ∧
    (∀ x : FloatE, is_nan x = true ↔ x = FloatE.nan) ∧
    (is_nan FloatE.pinf = false ∧ is_nan FloatE.ninf = false ∧ is_nan FloatE.nan = true) ∧
    (∀ (kf : KalmanFilterNoControl n m) (prev : StateAndCovariance n)
        (observation : Fin m → FloatE) (method : CovarianceUpdateMethod),
      (∀ i, observation i ≠ FloatE.nan) →
      step_with_options kf prev observation method =
        update kf.observation_matrix (predict kf.transition_model prev) observation method) := by
  refine ⟨fun x => ?_, is_nan_iff_eq_nan, ⟨rfl, rfl, rfl⟩, ?_⟩
  · simp [is_nan, Option.isNone_iff_eq_none]
  · intro kf prev observation method h
    rw [step_with_options, if_neg]
    rintro ⟨i, hi⟩
    exact h i ((is_nan_iff_eq_nan _).mp hi)

/-- Witness for C10: an observation whose single component is positive
infinity is not treated as missing — `step_with_options` hands it to
`update`. -/
theorem nan_classification_witness :
    (∀ i : Fin 1, obsInf i ≠ FloatE.nan) ∧
    step_with_options kf0 b0 obsInf CovarianceUpdateMethod.JosephForm =
      update kf0.observation_matrix (predict kf0.transition_model b0) obsInf
        CovarianceUpdateMethod.JosephForm :=
  ⟨fun _ => by simp [obsInf],
   (nan_classification (n := 1) (m := 1)).2.2.2 kf0 b0 obsInf
     CovarianceUpdateMethod.JosephForm (fun _ => by simp [obsInf])⟩

/-- C6: a backward smoother step on the filtered belief `filt` and the already
smoothed next-step belief `smooth_future` forms `prior = predict(filt)`; if the
Cholesky factorization of `prior.covariance` fails it surfaces
`CovarianceNotPositiveSemiDefinite` (and any failing step aborts the whole
smoothing pass with that error); otherwise it returns the belief with gain
`J = P_filt·(Fᵗ·prior.covariance⁻¹)`, mean
`x_filt + J·(x_future − x_prior)` and covariance
`P_filt + J·((P_future − P_prior)·Jᵗ)`. -/
theorem smooth_step_spec {n m : ℕ} (kf : KalmanFilterNoControl n m)
    (smooth_future filt : StateAndCovariance n)
    (hFT : kf.transition_model.FT = kf.transition_model.F.transpose) :
    let prior := predict kf.transition_model filt
    let j := mulE filt.covariance
      (mulE kf.transition_model.F.transpose (cholInverse prior.covariance))
    (choleskyOk prior.covariance = true →
      smooth_step kf smooth_future filt =
        Except.ok
          { state := filt.state + mulVecE j (smooth_future.state - prior.state)
            covariance := filt.covariance +
              mulE j (mulE (smooth_future.covariance - prior.covariance) j.transpose) }) ∧
    (choleskyOk prior.covariance = false →
      smooth_step kf smooth_future filt =
        Except.error Error.covarianceNotPositiveSemiDefinite) ∧
    (∀ e rest, smooth_step kf smooth_future filt = Except.error e →
      smoothBackLoop kf smooth_future (filt :: rest) = Except.error e) ∧
    (∀ (forward : List (StateAndCovariance n)) (first : StateAndCovariance n) rest e,
      forward.reverse = first :: rest →
      smoothBackLoop kf first rest = Except.error e →
      smooth_from_filtered kf forward = some (Except.error e)) := by
  refine ⟨fun hok => ?_, fun hbad => ?_, fun e rest herr => ?_, fun fw first rest e hrev hl => ?_⟩
  · simp [smooth_step, hok, hFT]
  · simp [smooth_step, hbad]
  · simp [smoothBackLoop, herr]
  · rw [smooth_from_filtered, hrev]
    simp [hl]

/-- Witness for C6: a successful concrete smoother step, and a concrete
filtered belief with zero covariance on which the step fails and the pass
aborts. -/
theorem smooth_step_spec_witness :
    smooth_step kf0 b0 b0 =
      Except.ok
        { state := b0.state + mulVecE
            (mulE b0.covariance (mulE kf0.transition_model.F.transpose
              (cholInverse (predict kf0.transition_model b0).covariance)))
            (b0.state - (predict kf0.transition_model b0).state)
          covariance := b0.covariance + mulE
            (mulE b0.covariance (mulE kf0.transition_model.F.transpose
              (cholInverse (predict kf0.transition_model b0).covariance)))
            (mulE (b0.covariance - (predict kf0.transition_model b0).covariance)
              (mulE b0.covariance (mulE kf0.transition_model.F.transpose
                (cholInverse (predict kf0.transition_model b0).covariance))).transpose) } ∧
    smooth_step kf0 b0 bZero = Except.error Error.covarianceNotPositiveSemiDefinite :=
  ⟨(smooth_step_spec kf0 b0 b0 rfl).1
      (by simp [predict, choleskyOk, allFinite, matToQ, mulE, mulVecE, dotE, List.finRange,
        List.range, List.range.loop, choleskyPivotsPos, schurComplement, FloatE.isFinite,
        FloatE.toQ, Matrix.add_apply, Fin.forall_fin_one, zero_eq, one_eq, fin_add_fin,
        fin_mul_fin, fin_sub_fin, tm0, kf0, b0, cmat]),
   (smooth_step_spec kf0 b0 bZero rfl).2.1
      (by simp [predict, choleskyOk, allFinite, matToQ, mulE, mulVecE, dotE, List.finRange,
        List.range, List.range.loop, choleskyPivotsPos, schurComplement, FloatE.isFinite,
        FloatE.toQ, Matrix.add_apply, Fin.forall_fin_one, zero_eq, one_eq, fin_add_fin,
        fin_mul_fin, fin_sub_fin, tm0, kf0, bZero, cmat])⟩

/-- C7: the whole-series `filter` returns exactly the sequence obtained by
repeatedly applying `step`, threading each output as the next step's previous
estimate — when every step succeeds this is a sequence of exactly as many
posterior beliefs as there are observations, and when any step fails the whole
pass aborts with that step's error and no partial sequence is returned. -/
theorem filter_spec {n m : ℕ} (kf : KalmanFilterNoControl n m)
    (init : StateAndCovariance n) (observations : List (Fin m → FloatE)) :
    filter kf init observations = some (stepSeq kf init observations) ∧
    (∀ l, stepSeq kf init observations = Except.ok l → l.length = observations.length) := by
  constructor
  · simp only [filter, filter_inplace, List.length_replicate, le_refl, if_true]
    rw [filter_inplace_loop_eq kf observations init _ (by simp)]
    cases ht : (stepTrace kf init observations).2 with
    | none =>
      rw [stepSeq_of_trace_none kf observations init ht]
      have hlen := stepTrace_none_length kf observations init ht
      simp [ht, hlen, List.drop_replicate]
    | some e =>
      rw [stepSeq_of_trace_some kf observations init e ht]
      simp [ht]
  · intro l hl
    cases ht : (stepTrace kf init observations).2 with
    | none =>
      have := stepSeq_of_trace_none kf observations init ht
      rw [this, Except.ok.injEq] at hl
      rw [← hl]
      exact stepTrace_none_length kf observations init ht
    | some e =>
      rw [stepSeq_of_trace_some kf observations init e ht] at hl
      exact absurd hl (by simp)

/-- Witness for C7: the concrete filter over a one-element series (the single
observation is missing, so the step is the pure prediction). -/
theorem filter_spec_witness :
    filter kf0 b0 [obsNan] = some (stepSeq kf0 b0 [obsNan]) ∧
    [predict kf0.transition_model b0].length = [obsNan].length :=
  ⟨(filter_spec kf0 b0 [obsNan]).1,
   (filter_spec kf0 b0 [obsNan]).2 [predict kf0.transition_model b0]
     (by simp [stepSeq, step, step_with_options, Fin.exists_fin_one, obsNan, is_nan,
       FloatE.pcmp])⟩

/-- C8: a successful `smooth_from_filtered` on a non-empty filtered sequence of
length `L` returns `L` smoothed beliefs in forward time order whose last
element is the last filtered belief unchanged; smoothing a filtered series of
length one returns exactly that single belief. -/
theorem smooth_from_filtered_spec {n m : ℕ} (kf : KalmanFilterNoControl n m) :
    (∀ (l out : List (StateAndCovariance n)), l ≠ [] →
      smooth_from_filtered kf l = some (Except.ok out) →
      out.length = l.length ∧ out.getLast? = l.getLast?) ∧
    (∀ b, smooth_from_filtered kf [b] = some (Except.ok [b])) := by
  constructor
  · intro l out hne hsm
    cases hrev : l.reverse with
    | nil => exact absurd (List.reverse_eq_nil_iff.mp hrev) hne
    | cons first rest =>
      simp only [smooth_from_filtered, hrev] at hsm
      cases hl : smoothBackLoop kf first rest with
      | error e => rw [hl] at hsm; simp at hsm
      | ok l2 =>
        rw [hl] at hsm
        simp only [Option.some_inj, Except.ok.injEq] at hsm
        have hlen : l.length = rest.length + 1 := by
          have := congrArg List.length hrev
          simpa using this
        constructor
        · rw [← hsm]
          simp [smoothBackLoop_length kf rest first l2 hl, hlen]
        · rw [← hsm, List.getLast?_reverse]
          rw [← List.head?_reverse, hrev]
          rfl
  · intro b
    rfl

/-- Witness for C8: smoothing the concrete filtered series of length one. -/
theorem smooth_from_filtered_spec_witness :
    ([b0].length = [b0].length ∧
      ([b0] : List (StateAndCovariance 1)).getLast? = [b0].getLast?) ∧
    smooth_from_filtered kf0 [b0] = some (Except.ok [b0]) :=
  ⟨(smooth_from_filtered_spec kf0).1 [b0] [b0] (by simp)
      ((smooth_from_filtered_spec kf0).2 b0),
   (smooth_from_filtered_spec kf0).2 b0⟩

/-- C9: `filter_inplace` first checks that the output buffer has at least as
many slots as there are observations and panics before writing anything when it
does not; with a large enough buffer it writes exactly the threaded step
outputs produced before the first failure into the leading slots and leaves
every later slot unchanged, returning success (having written exactly the first
`L` slots) when every step succeeds, and the failing step's error (with the
slots from the failing index onward unchanged) otherwise. -/
theorem filter_inplace_frame {n m : ℕ} (kf : KalmanFilterNoControl n m)
    (init : StateAndCovariance n) (observations : List (Fin m → FloatE))
    (buf : List (StateAndCovariance n)) :
    (buf.length < observations.length →
      filter_inplace kf init observations buf = InplaceResult.panic buf) ∧
    (observations.length ≤ buf.length →
      filter_inplace kf init observations buf =
        InplaceResult.normal
          ((stepTrace kf init observations).2.elim (Except.ok ()) Except.error)
          ((stepTrace kf init observations).1 ++
            buf.drop (stepTrace kf init observations).1.length)) ∧
    ((stepTrace kf init observations).2 = none →
      (stepTrace kf init observations).1.length = observations.length) ∧
    (∀ e, (stepTrace kf init observations).2 = some e →
      (stepTrace kf init observations).1.length < observations.length) := by
  refine ⟨fun hlt => ?_, fun hle => ?_, stepTrace_none_length kf observations init,
    fun e => stepTrace_some_length_lt kf observations init e⟩
  · rw [filter_inplace, if_neg (by omega)]
  · rw [filter_inplace, if_pos hle, filter_inplace_loop_eq kf observations init buf hle]

/-- Witness for C9: with an empty buffer and one observation the concrete
in-place filter panics with the buffer untouched; with a one-slot buffer it
runs normally and the buffer holds the written prefix plus the untouched
tail. -/
theorem filter_inplace_frame_witness :
    filter_inplace kf0 b0 [obsNan] [] = InplaceResult.panic [] ∧
    filter_inplace kf0 b0 [obsNan] [bZero] =
      InplaceResult.normal
        ((stepTrace kf0 b0 [obsNan]).2.elim (Except.ok ()) Except.error)
        ((stepTrace kf0 b0 [obsNan]).1 ++
          [bZero].drop (stepTrace kf0 b0 [obsNan]).1.length) :=
  ⟨(filter_inplace_frame kf0 b0 [obsNan] []).1 (by simp),
   (filter_inplace_frame kf0 b0 [obsNan] [bZero]).2.1 (by simp)⟩

end Kalman
